import Mathlib

/-!
Verification development for the kornia benchmark runner
(src/dynamo/runner.py).  The configuration-expansion engine and the
benchmark execution/recording pipeline are embedded shallowly: YAML
values become an inductive `YVal`, Python dicts become association
lists in insertion order, fallible Python code becomes `Except`, and
the external collaborators (dynamic import, operator invocation, the
timing engine) become an explicit `World` of oracles.
-/

namespace Runner

/-- The fragment of YAML values that the runner's configuration
documents use: integers, strings, lists and string-keyed mappings
(in insertion order, as Python dicts preserve it). -/
inductive YVal where
  | int (n : Int)
  | str (s : String)
  | list (vs : List YVal)
  | dict (entries : List (String × YVal))

/-- Errors that abort configuration loading, mirroring the Python
exceptions that can escape `load_config`. -/
inductive CfgErr where
  /-- `raise NotImplementedError` in `_unpack_config` for a dict kwarg
  without the key `ones`. -/
  | notImplemented
  /-- `UnboundLocalError`: `_unpack_config` reaches
  `partial(create_ones, shape=shape)` with `shape` never assigned
  (empty or non-list `ones` value). -/
  | unboundLocal
  /-- `KeyError` from a failed Python dict lookup. -/
  | keyError (k : String)
  /-- `TypeError` (e.g. `int()` of a list, iterating a non-iterable). -/
  | typeError
  /-- `ValueError` (e.g. `int()` of a non-numeric string). -/
  | valueError
  /-- `AttributeError` (e.g. `.items()` on a non-dict section). -/
  | attributeError
deriving DecidableEq, Repr

/-- Python dict lookup `d[k]` / `k in d` on an association list with
the dict's insertion order (YAML-loaded dicts have unique keys). -/
def lookupD (es : List (String × YVal)) (k : String) : Option YVal :=
  (es.find? (fun p => p.1 == k)).map (fun p => p.2)

/-- Python `int(x)` on a YAML value: integers pass through, numeric
strings parse, everything else raises. -/
def pyInt : YVal → Except CfgErr Int
  | .int n => .ok n
  | .str s =>
      match s.toInt? with
      | some n => .ok n
      | none => .error .valueError
  | _ => .error .typeError

/-- A per-operator kwarg value after `_unpack_config`: either the raw
YAML value, or the callable `partial(create_ones, shape=shape)`
capturing the resolved shape tuple. -/
inductive CfgEntry where
  | val (v : YVal)
  | onesGen (shape : List Int)

/-- `callable(v)` on a `CfgEntry`: only the `partial` is callable. -/
def isCallable : CfgEntry → Bool
  | .onesGen _ => true
  | .val _ => false

/-- `Except`-valued `mapM` over a list, first error wins (the order in
which Python evaluates comprehensions and generator expressions). -/
def eMapM (f : α → Except ε β) : List α → Except ε (List β)
  | [] => .ok []
  | x :: xs =>
      match f x with
      | .error e => .error e
      | .ok y =>
          match eMapM f xs with
          | .error e => .error e
          | .ok ys => .ok (y :: ys)

/-- The `if 'ones' in i` branch of `_unpack_config`: a list of length
at least 2 is converted elementwise by `int` and used verbatim as the
shape tuple, a singleton `[d]` becomes the square shape `(d, d)`, and
any other value (empty list, non-list) leaves the local `shape`
unassigned, so reaching `partial(create_ones, shape=shape)` raises
`UnboundLocalError`. -/
def unpack_ones : YVal → Except CfgErr CfgEntry
  | .list (v :: w :: rest) =>
      match eMapM pyInt (v :: w :: rest) with
      | .ok ns => .ok (.onesGen ns)
      | .error e => .error e
  | .list [v] =>
      match pyInt v with
      | .ok d => .ok (.onesGen [d, d])
      | .error e => .error e
  | _ => .error .unboundLocal

/-- `_unpack_config(i)` from runner.py: a dict with key `ones` becomes
a deferred generator via `unpack_ones`; a dict without `ones` raises
`NotImplementedError`; a non-dict value is returned unchanged. -/
def unpack_config (i : YVal) : Except CfgErr CfgEntry :=
  match i with
  | .dict es =>
      match lookupD es "ones" with
      | some onesVal => unpack_ones onesVal
      | none => .error .notImplemented
  | v => .ok (.val v)

/-- Python iteration over a value, as `itertools.product` consumes it:
lists yield their elements, strings yield their characters, dicts
yield their keys, and numbers raise `TypeError`. -/
def pyIter : YVal → Except CfgErr (List YVal)
  | .list vs => .ok vs
  | .str s => .ok (s.data.map (fun c => .str (String.mk [c])))
  | .dict es => .ok (es.map (fun p => .str p.1))
  | _ => .error .typeError

/-- `itertools.product(*lists)`: all selections of one element per
list, rightmost list varying fastest. -/
def listProduct : List (List α) → List (List α)
  | [] => [[]]
  | l :: ls => l.flatMap (fun x => (listProduct ls).map (fun e => x :: e))

/-- How `itertools.product(*prod_cases.values())` consumes one
non-callable entry: iterate its value (a callable entry never reaches
this point, `product` of a `partial` would be a `TypeError`). -/
def iter_entry : String × CfgEntry → Except CfgErr (List YVal)
  | (_, .val v) => pyIter v
  | (_, .onesGen _) => .error .typeError

/-- `dict_product(data)` from runner.py: split the dict into its
non-callable entries (`prod_cases`) and its callable entries
(`others`), take the cartesian product of the non-callable values,
and yield for each product element the dict `{**out_prod, **others}`
— keys of the product part first, then the callables, unchanged. -/
def dict_product (data : List (String × CfgEntry)) :
    Except CfgErr (List (List (String × CfgEntry))) :=
  let prod_cases := data.filter (fun p => !(isCallable p.2))
  let others := data.filter (fun p => isCallable p.2)
  match eMapM iter_entry prod_cases with
  | .error e => .error e
  | .ok vlists =>
      .ok ((listProduct vlists).map (fun element =>
        (prod_cases.map Prod.fst).zip (element.map CfgEntry.val) ++ others))

/-- `_unpack_config_or_load_global(config_name, data, global_data)`:
look the key up in the operator section, fall back to the `global`
section; a miss in both is Python's `KeyError` (here `global_data` is
whatever value the `global` key held, so a non-dict global also
raises). -/
def unpack_config_or_load_global (config_name : String)
    (data : List (String × YVal)) (global_data : YVal) :
    Except CfgErr YVal :=
  match lookupD data config_name with
  | some v => .ok v
  | none =>
      match global_data with
      | .dict ges =>
          match lookupD ges config_name with
          | some v => .ok v
          | none => .error (.keyError config_name)
      | _ => .error .typeError

def DEFAULT_CONFIGS : List String :=
  ["batch_sizes", "resolutions", "threads", "import_from"]

/-- The comprehension filter in `load_config`:
`if cv not in DEFAULT_CONFIGS and cn != 'no_args'`.  Note that the
membership test is applied to the VALUE `cv` (so it only drops entries
whose value is literally one of the four strings), while the
`no_args` test is applied to the KEY `cn`. -/
def keepKwarg (cn : String) (cv : YVal) : Bool :=
  !(match cv with
    | .str s => DEFAULT_CONFIGS.contains s
    | _ => false) && cn != "no_args"

/-- One fully-resolved trial descriptor, the dict
`{'module': k, 'kwargs': lc, 'batch_sizes': …, 'resolutions': …,
'threads': …, 'import_from': …}` built by `load_config`. -/
structure Descriptor where
  module : String
  kwargs : List (String × CfgEntry)
  batch_sizes : YVal
  resolutions : YVal
  threads : YVal
  import_from : YVal

/-- The kwargs dict passed to `dict_product` for one operator section:
keep the entries surviving the (value-based) filter and run
`_unpack_config` on each value. -/
def section_kwargs (v : List (String × YVal)) :
    Except CfgErr (List (String × CfgEntry)) :=
  eMapM (fun p =>
      match unpack_config p.2 with
      | .ok e => .ok (p.1, e)
      | .error e => .error e)
    (v.filter (fun p => keepKwarg p.1 p.2))

/-- The descriptor built for one kwargs combination `lc` of section
`(k, v)`: the four default keys are resolved per combination, in the
order of `DEFAULT_CONFIGS`, first failure aborting the load. -/
def build_descriptor (global_config : YVal) (k : String)
    (v : List (String × YVal)) (lc : List (String × CfgEntry)) :
    Except CfgErr Descriptor :=
  match unpack_config_or_load_global "batch_sizes" v global_config with
  | .error e => .error e
  | .ok bs =>
      match unpack_config_or_load_global "resolutions" v global_config with
      | .error e => .error e
      | .ok rs =>
          match unpack_config_or_load_global "threads" v global_config with
          | .error e => .error e
          | .ok th =>
              match unpack_config_or_load_global "import_from" v global_config with
              | .error e => .error e
              | .ok imf =>
                  .ok { module := k, kwargs := lc, batch_sizes := bs,
                        resolutions := rs, threads := th, import_from := imf }

/-- All descriptors contributed by one operator section `(k, v)`:
unpack the kwargs, expand with `dict_product`, and build one
descriptor per combination. -/
def load_section (global_config : YVal) (k : String) (sv : YVal) :
    Except CfgErr (List Descriptor) :=
  match sv with
  | .dict v =>
      match section_kwargs v with
      | .error e => .error e
      | .ok kw =>
          match dict_product kw with
          | .error e => .error e
          | .ok combos => eMapM (build_descriptor global_config k v) combos
  | _ => .error .attributeError

/-- `Except`-valued `flatMap` over a list, first error wins. -/
def eFlatMapM (f : α → Except ε (List β)) : List α → Except ε (List β)
  | [] => .ok []
  | x :: xs =>
      match f x with
      | .error e => .error e
      | .ok ys =>
          match eFlatMapM f xs with
          | .error e => .error e
          | .ok zs => .ok (ys ++ zs)

/-- `load_config` from runner.py on an already-parsed YAML document
(top-level dict in document order): read `data['global']`, then for
every non-`global` section expand its kwargs and emit one descriptor
per combination, in document order. -/
def load_config (data : List (String × YVal)) :
    Except CfgErr (List Descriptor) :=
  match lookupD data "global" with
  | none => .error (.keyError "global")
  | some global_config =>
      eFlatMapM (fun p => load_section global_config p.1 p.2)
        (data.filter (fun p => p.1 != "global"))

/-! ## Input materializer -/

/-- Errors escaping the execution pipeline uncaught (they abort the
run, unlike probe failures). -/
inductive RunErr where
  /-- torch `RuntimeError` (e.g. a negative dimension). -/
  | runtimeError
  /-- `raise NotImplementedError` for non-RGB input in `create_inputs`. -/
  | notImplemented
deriving DecidableEq, Repr

/-- A dense N-dimensional array in row-major layout: torch tensors and
numpy arrays share this mathematical content (dtype and device do not
change the stored values for the uniform arrays the runner builds). -/
structure NdArr where
  shape : List Nat
  flat : List Int
deriving DecidableEq, Repr

/-- `torch.ones(shape, dtype=…, device=…)`: rejects negative
dimensions, otherwise a uniform array of ones of the given shape. -/
def torch_ones (shape : List Int) : Except RunErr NdArr :=
  if shape.all (fun d => 0 ≤ d) then
    .ok ⟨shape.map Int.toNat, List.replicate (shape.map Int.toNat).prod 1⟩
  else .error .runtimeError

/-- `x[None]`: add a leading axis of extent 1 (row-major data
unchanged). -/
def unsqueeze0 (t : NdArr) : NdArr :=
  ⟨1 :: t.shape, t.flat⟩

/-- `x.repeat(bs, 1, 1, 1)`: tile the array `bs` times along the
leading axis (the other repeat factors are 1); a negative count is a
torch `RuntimeError`. -/
def repeat_dim0 (bs : Int) (t : NdArr) : Except RunErr NdArr :=
  if bs < 0 then .error .runtimeError
  else .ok ⟨bs.toNat * t.shape.headD 1 :: t.shape.tail,
            (List.replicate bs.toNat t.flat).flatten⟩

/-- A materialized value: either a torch tensor or (after
`.detach().cpu().numpy()`, which preserves shape and values) a numpy
array. -/
inductive Val where
  | tensor (t : NdArr)
  | ndarray (t : NdArr)
deriving DecidableEq, Repr

def valShape : Val → List Nat
  | .tensor t => t.shape
  | .ndarray t => t.shape

/-- Every stored element equals one. -/
def valAllOnes : Val → Bool
  | .tensor t => t.flat.all (fun x => x == 1)
  | .ndarray t => t.flat.all (fun x => x == 1)

/-- `create_ones(shape, out_t, dtype, device)` from runner.py: a
uniform ones array of the given shape, converted to a numpy array
unless `out_t == 'tensor'`. -/
def create_ones (shape : List Int) (out_t : String)
    (dtype device : String) : Except RunErr Val :=
  match torch_ones shape with
  | .error e => .error e
  | .ok t => .ok (if out_t == "tensor" then .tensor t else .ndarray t)

/-- `create_inputs(bs, res, out_t, dtype, device, RGB)` from
runner.py: for RGB input, `torch.ones((3, res, res))`, with
`x[None].repeat(bs, 1, 1, 1)` applied when a batch size is given,
converted to numpy unless `out_t == 'tensor'`; non-RGB input raises
`NotImplementedError`. -/
def create_inputs (bs : Option Int) (res : Int) (out_t : String)
    (dtype device : String) (RGB : Bool) : Except RunErr Val :=
  if RGB then
    match torch_ones [3, res, res] with
    | .error e => .error e
    | .ok x0 =>
        match (match bs with
               | some b => repeat_dim0 b (unsqueeze0 x0)
               | none => .ok x0) with
        | .error e => .error e
        | .ok x => .ok (if out_t == "tensor" then .tensor x else .ndarray x)
  else .error .notImplemented

/-- A kwarg value at execution time: still a raw YAML literal, or a
materialized array produced by a resolved deferred generator. -/
inductive RVal where
  | y (v : YVal)
  | arr (v : Val)

/-- `_build_kwargs(f_kwargs, out_t, dtype, device)` from runner.py:
callable values (the deferred `partial(create_ones, shape=…)`) are
called with the current `(out_t, dtype, device)`, literals pass
through. -/
def build_kwargs (f_kwargs : List (String × CfgEntry)) (out_t : String)
    (dtype device : String) : Except RunErr (List (String × RVal)) :=
  eMapM (fun p =>
      match p.2 with
      | .onesGen shape =>
          match create_ones shape out_t dtype device with
          | .ok v => .ok (p.1, RVal.arr v)
          | .error e => .error e
      | .val v => .ok (p.1, RVal.y v))
    f_kwargs

/-! ## Trial runner -/

/-- The external world the runner calls into: dynamic import,
attribute lookup, operator invocation (with or without the dynamo
optimization transform applied first), and the black-box timing
engine.  Modules and operators are abstract tokens. -/
structure World where
  importMod : String → Except String Nat
  getattr : Nat → String → Except String Nat
  invoke : Nat → Bool → Val → List (String × RVal) → Except String Unit
  measure : String → String → String → Int → Nat

/-- `_check_run(verbose, module, operator, x, optimizer, **kwargs)`
from runner.py: import the module, look the operator up, invoke it
once on the materialized input; any exception in any of these steps is
caught (optionally printed when verbose) and becomes `False`; `True`
only when import, lookup and invocation all succeed. -/
def check_run (w : World) (verbose : Bool) (module operator : String)
    (x : Val) (optimizer : Bool) (kwargs : List (String × RVal)) : Bool :=
  match w.importMod module with
  | .error _ => false
  | .ok m =>
      match w.getattr m operator with
      | .error _ => false
      | .ok op =>
          match w.invoke op optimizer x kwargs with
          | .error _ => false
          | .ok _ => true

/-- One element of the hardcoded `_iters` table of
`_iter_op_device`, after the optimize tuple is unpacked into
`(_opt_name, _opt_txt, _opt)` (the label text is omitted, the
optimizer object becomes the flag `use_opt`). -/
structure OuterCombo where
  operator : String
  input_type : String
  device : String
  opt_name : String
  use_opt : Bool
deriving DecidableEq, Repr

/-- `_iter_op_device()` from runner.py: the fixed enumerated
(operator, input representation, device, optimization) table. -/
def iter_op_device : List OuterCombo :=
  [⟨"kornia_op", "tensor", "cpu", "", false⟩,
   ⟨"kornia_op", "tensor", "cuda", "", false⟩,
   ⟨"kornia_op", "tensor", "cpu", "dynamo_", true⟩,
   ⟨"kornia_op", "tensor", "cuda", "dynamo_", true⟩,
   ⟨"opencv_op", "numpy", "cpu", "", false⟩]

/-- One fully-resolved config dict as `run` consumes it: the fields of
a `Descriptor` with the four defaults already interpreted as the lists
`run` iterates (batch sizes may be YAML `null`, i.e. `None`). -/
structure RunCfg where
  module : String
  kwargs : List (String × CfgEntry)
  batch_sizes : List (Option Int)
  resolutions : List Int
  threads : List Int
  import_from : String

/-- `itertools.product(xs, ys)`, rightmost varying fastest. -/
def prod2 (xs : List α) (ys : List β) : List (α × β) :=
  xs.flatMap (fun a => ys.map (fun b => (a, b)))

/-- `_iter_cfg(configs)` from runner.py: every config with every
(batch size, resolution) pair from its lists. -/
def iter_cfg (configs : List RunCfg) : List (RunCfg × Option Int × Int) :=
  configs.flatMap (fun cfg =>
    (prod2 cfg.batch_sizes cfg.resolutions).map (fun p => (cfg, p.1, p.2)))

/-- Python `str(bs)` for the optional batch size. -/
def bsStr : Option Int → String
  | none => "None"
  | some n => toString n

/-- Python `str(v)` on a YAML value (dict values cannot reach the
kwarg strings, so their text is irrelevant to the runner). -/
def yvalStr : YVal → String
  | .int n => toString n
  | .str s => s
  | .list vs => "[" ++ String.intercalate ", "
      (vs.attach.map (fun p => yvalStr p.1)) ++ "]"
  | .dict _ => "\x7b…\x7d"
decreasing_by
  simp only [YVal.list.sizeOf_spec]
  have := List.sizeOf_lt_of_mem p.2
  omega

/-- `str(tuple(v.shape))` for an array-valued kwarg, `str(v)`
otherwise (the `hasattr(v, 'shape')` test in `run`). -/
def rvalStr : RVal → String
  | .arr v =>
      match valShape v with
      | [d] => "(" ++ toString d ++ ",)"
      | ds => "(" ++ String.intercalate ", " (ds.map toString) ++ ")"
  | .y v => yvalStr v

/-- The `sub_label` string `f'[{bs}, {res}, {_args_values_str}]'`. -/
def sub_label_str (bs : Option Int) (res : Int)
    (kwargs : List (String × RVal)) : String :=
  "[" ++ bsStr bs ++ ", " ++ toString res ++ ", " ++
    String.intercalate ", " (kwargs.map (fun p => rvalStr p.2)) ++ "]"

/-- The `description` string
`f'{_opt_name}{operator.split("_")[0]}_{device}'`. -/
def desc_str (opt_name operator device : String) : String :=
  opt_name ++ ((operator.splitOn "_").headD "") ++ "_" ++ device

/-- One `BenchmarkRecord`: the tags `benchmark.Timer` is configured
with, plus the opaque measurement the timing engine returned. -/
structure BRec where
  label : String
  sub_label : String
  description : String
  num_threads : Int
  value : Nat
deriving DecidableEq, Repr

/-- The durable pickle output stream: the sequence of records appended
so far, in append order. -/
structure PFile where
  data : List BRec
deriving DecidableEq, Repr

/-- `pickle.dump(bench_out, fp, …)`: append one record. -/
def pickle_dump (r : BRec) (fp : PFile) : PFile :=
  ⟨fp.data ++ [r]⟩

/-- The `while True: results.append(pickle.load(fp))` loop of
`_unpick`, reading from the suffix of the stream not yet consumed;
`pickle.load` at end-of-stream raises `EOFError`, which terminates the
loop and returns the accumulated records. -/
def unpick_from (acc : List BRec) : List BRec → List BRec
  | [] => acc.reverse
  | r :: rest => unpick_from (r :: acc) rest

/-- `_unpick(filename)` from runner.py: open the stream at the start
and read records until end-of-stream. -/
def unpick (fp : PFile) : List BRec :=
  unpick_from [] fp.data

/-- The body of the inner loop of `run` for one combination: create
the primary input, resolve kwargs, probe with `_check_run`; on probe
success produce one timed record per configured thread count, on
probe failure produce none.  Errors escaping `create_inputs` or
`_build_kwargs` are not caught and abort the run. -/
def run_combo (w : World) (verbose : Bool) (o : OuterCombo)
    (cfg : RunCfg) (bs : Option Int) (res : Int) :
    Except RunErr (List BRec) :=
  match create_inputs bs res o.input_type "float32" o.device true with
  | .error e => .error e
  | .ok x =>
      match build_kwargs cfg.kwargs o.input_type "float32" o.device with
      | .error e => .error e
      | .ok kwargs =>
          let import_from := cfg.import_from ++ "." ++ cfg.module
          let sub_label := sub_label_str bs res kwargs
          let desc := desc_str o.opt_name o.operator o.device
          if check_run w verbose import_from o.operator x o.use_opt kwargs then
            .ok (cfg.threads.map (fun nt =>
              { label := cfg.module, sub_label := sub_label,
                description := desc, num_threads := nt,
                value := w.measure cfg.module sub_label desc nt }))
          else .ok []

/-- The flattened iteration space of `run`: the outer
(operator, device, optimization) loop crossed with the inner
(config, batch, resolution) loop, in the nested loops' order. -/
def all_combos (configs : List RunCfg) :
    List (OuterCombo × RunCfg × Option Int × Int) :=
  iter_op_device.flatMap (fun o =>
    (iter_cfg configs).map (fun t => (o, t)))

/-- `run_combo` applied to one element of the flattened iteration
space. -/
def combo_records (w : World) (verbose : Bool)
    (c : OuterCombo × RunCfg × Option Int × Int) :
    Except RunErr (List BRec) :=
  run_combo w verbose c.1 c.2.1 c.2.2.1 c.2.2.2

/-- The loop of `run`: process the combinations in order, appending
each produced record to the open output stream. -/
def run_fold (w : World) (verbose : Bool) (fp : PFile) :
    List (OuterCombo × RunCfg × Option Int × Int) →
    Except RunErr PFile
  | [] => .ok fp
  | c :: cs =>
      match combo_records w verbose c with
      | .error e => .error e
      | .ok recs =>
          run_fold w verbose (recs.foldl (fun f r => pickle_dump r f) fp) cs

/-- `run(configs, output_filename, verbose)` from runner.py: open a
fresh output stream, sweep every combination, then reload the whole
stream with `_unpick` (handing it to `benchmark.Compare`) and return
0.  The final stream and the reloaded record list are returned
alongside the exit code to make the persisted state explicit. -/
def run (w : World) (configs : List RunCfg) (verbose : Bool) :
    Except RunErr (PFile × List BRec × Int) :=
  match run_fold w verbose ⟨[]⟩ (all_combos configs) with
  | .error e => .error e
  | .ok fp => .ok (fp, unpick fp, 0)

/-! ## Measuring helpers and concrete configuration documents -/

/-- The list of candidate values a non-callable kwarg entry offers to
the cartesian product (the empty list for entries that are not value
lists). -/
def entryVs : CfgEntry → List YVal
  | .val (.list vs) => vs
  | _ => []

/-- A document whose operator section overrides `batch_sizes`: under
the key-based filter the spec describes, the override would never
reach the kwargs space. -/
def docOverrideLeak : List (String × YVal) :=
  [("global", .dict [("batch_sizes", .list [.int 8]),
                     ("resolutions", .list [.int 2]),
                     ("threads", .list [.int 1]),
                     ("import_from", .str "m")]),
   ("myop", .dict [("batch_sizes", .list [.int 1]), ("x", .list [.int 3])])]

/-- The descriptor the code actually produces for `docOverrideLeak`:
the `batch_sizes` override appears inside `kwargs`. -/
def descOverrideLeak : Descriptor :=
  { module := "myop",
    kwargs := [("batch_sizes", .val (.int 1)), ("x", .val (.int 3))],
    batch_sizes := .list [.int 1], resolutions := .list [.int 2],
    threads := .list [.int 1], import_from := .str "m" }

/-- A document whose operator section has a kwarg `x` whose VALUE is
the string `"threads"`: the value-based filter drops it. -/
def docValueDrop : List (String × YVal) :=
  [("global", .dict [("batch_sizes", .list [.int 1]),
                     ("resolutions", .list [.int 2]),
                     ("threads", .list [.int 1]),
                     ("import_from", .str "m")]),
   ("op2", .dict [("x", .str "threads"), ("y", .list [.int 5])])]

/-- The descriptor produced for `docValueDrop`: the non-default key
`x` is missing from the kwargs space. -/
def descValueDrop : Descriptor :=
  { module := "op2", kwargs := [("y", .val (.int 5))],
    batch_sizes := .list [.int 1], resolutions := .list [.int 2],
    threads := .list [.int 1], import_from := .str "m" }

/-- A document whose only operator section misses every default key
(both locally and in `global`) but whose kwarg value list is empty, so
the cartesian product is empty and the default lookups never run. -/
def docEmptyCombos : List (String × YVal) :=
  [("global", .dict []), ("op", .dict [("x", .list [])])]

/-- A document missing `threads` both in the section and in `global`,
with one nonempty kwarg value list. -/
def docMissingThreads : List (String × YVal) :=
  [("global", .dict [("batch_sizes", .list [.int 1]),
                     ("resolutions", .list [.int 2]),
                     ("import_from", .str "m")]),
   ("op", .dict [("x", .list [.int 1])])]

/-- A document whose operator section carries only deferred-generator
kwargs. -/
def docOnlyGenerators : List (String × YVal) :=
  [("global", .dict [("batch_sizes", .list [.int 1]),
                     ("resolutions", .list [.int 2]),
                     ("threads", .list [.int 1]),
                     ("import_from", .str "m")]),
   ("op", .dict [("k1", .dict [("ones", .list [.int 4])]),
                 ("k2", .dict [("ones", .list [.int 2, .int 3])])])]

/-- The single descriptor produced for `docOnlyGenerators`. -/
def descOnlyGenerators : Descriptor :=
  { module := "op",
    kwargs := [("k1", .onesGen [4, 4]), ("k2", .onesGen [2, 3])],
    batch_sizes := .list [.int 1], resolutions := .list [.int 2],
    threads := .list [.int 1], import_from := .str "m" }

/-- A world in which every import and invocation succeeds. -/
def worldA : World :=
  { importMod := fun _ => .ok 0, getattr := fun _ _ => .ok 0,
    invoke := fun _ _ _ _ => .ok (), measure := fun _ _ _ _ => 0 }

/-- A world in which every operator invocation raises (imports
succeed), so every probe fails. -/
def worldFail : World :=
  { importMod := fun _ => .ok 0, getattr := fun _ _ => .ok 0,
    invoke := fun _ _ _ _ => .error "boom", measure := fun _ _ _ _ => 0 }

/-- A minimal one-operator resolved configuration. -/
def cfg0 : RunCfg :=
  { module := "op", kwargs := [], batch_sizes := [some 1],
    resolutions := [1], threads := [1], import_from := "m" }

/-! ## Supporting lemmas -/

theorem sum_map_const (l : List α) (n : Nat) :
    (l.map (fun _ => n)).sum = l.length * n := by
  induction l with
  | nil => simp
  | cons a l ih => simp [ih, Nat.succ_mul, Nat.add_comm]

theorem listProduct_length (ls : List (List α)) :
    (listProduct ls).length = (ls.map List.length).prod := by
  induction ls with
  | nil => rfl
  | cons l ls ih =>
      calc (listProduct (l :: ls)).length
          = (l.map (fun _ => (listProduct ls).length)).sum := by
            simp [listProduct, List.length_flatMap, Function.comp_def]
        _ = l.length * (listProduct ls).length := sum_map_const l _
        _ = ((l :: ls).map List.length).prod := by simp [ih]

theorem length_of_mem_listProduct {ls : List (List α)} {e : List α}
    (h : e ∈ listProduct ls) : e.length = ls.length := by
  induction ls generalizing e with
  | nil =>
      simp only [listProduct, List.mem_singleton] at h
      subst h; rfl
  | cons l ls ih =>
      simp only [listProduct, List.mem_flatMap, List.mem_map] at h
      obtain ⟨x, _, e2, he2, rfl⟩ := h
      simp [ih he2]

theorem flatMap_cons_nodup {l : List α} {P : List (List α)}
    (hl : l.Nodup) (hP : P.Nodup) :
    (l.flatMap (fun x => P.map (fun e => x :: e))).Nodup := by
  induction l with
  | nil => simp
  | cons a tl ih =>
      rw [List.nodup_cons] at hl
      obtain ⟨hax, htl⟩ := hl
      simp only [List.flatMap_cons]
      refine List.Nodup.append ?_ (ih htl) ?_
      · exact hP.map (fun e1 e2 he => by
          simpa using congrArg List.tail he)
      · intro z hz1 hz2
        simp only [List.mem_map] at hz1
        simp only [List.mem_flatMap, List.mem_map] at hz2
        obtain ⟨e1, _, rfl⟩ := hz1
        obtain ⟨x, hx, e2, _, he⟩ := hz2
        have hxa : x = a := by simpa using congrArg List.head? he
        exact hax (hxa ▸ hx)

theorem listProduct_nodup {ls : List (List α)} (h : ∀ l ∈ ls, l.Nodup) :
    (listProduct ls).Nodup := by
  induction ls with
  | nil => simp [listProduct]
  | cons l ls ih =>
      simp only [listProduct]
      exact flatMap_cons_nodup (h l (List.mem_cons_self l ls))
        (ih (fun x hx => h x (List.mem_cons_of_mem _ hx)))

theorem eMapM_ok_forall {f : α → Except ε β} {l : List α} {ys : List β}
    (h : eMapM f l = .ok ys) : ∀ x ∈ l, ∃ y, f x = .ok y := by
  induction l generalizing ys with
  | nil => simp
  | cons a l ih =>
      intro x hx
      rw [eMapM] at h
      cases hfa : f a with
      | error e => rw [hfa] at h; cases h
      | ok y =>
          rw [hfa] at h
          cases hrest : eMapM f l with
          | error e => rw [hrest] at h; cases h
          | ok ys2 =>
              rcases List.mem_cons.mp hx with rfl | hx2
              · exact ⟨y, hfa⟩
              · exact ih hrest x hx2

theorem eMapM_error_of_mem {f : α → Except ε β} {l : List α} {x : α}
    (hx : x ∈ l) (he : ∃ e, f x = .error e) :
    ∃ e2, eMapM f l = .error e2 := by
  induction l with
  | nil => cases hx
  | cons a l ih =>
      rcases List.mem_cons.mp hx with rfl | hx2
      · obtain ⟨e, hfe⟩ := he
        exact ⟨e, by rw [eMapM, hfe]⟩
      · cases hfa : f a with
        | error e => exact ⟨e, by rw [eMapM, hfa]⟩
        | ok y =>
            obtain ⟨e2, hrec⟩ := ih hx2
            exact ⟨e2, by rw [eMapM, hfa, hrec]⟩

theorem eMapM_cons_ok {f : α → Except ε β} {x : α} {l : List α}
    {ys : List β} (h : eMapM f (x :: l) = .ok ys) :
    ∃ y ys2, f x = .ok y ∧ eMapM f l = .ok ys2 ∧ ys = y :: ys2 := by
  rw [eMapM] at h
  cases hfa : f x with
  | error e => rw [hfa] at h; cases h
  | ok y =>
      rw [hfa] at h
      cases hrest : eMapM f l with
      | error e => rw [hrest] at h; cases h
      | ok ys2 =>
          rw [hrest] at h
          cases h
          exact ⟨y, ys2, rfl, rfl, rfl⟩

theorem eMapM_append_ok {f : α → Except ε β} {l1 l2 : List α}
    {ys : List β} (h : eMapM f (l1 ++ l2) = .ok ys) :
    ∃ ys1 ys2, eMapM f l1 = .ok ys1 ∧ eMapM f l2 = .ok ys2 ∧
      ys = ys1 ++ ys2 := by
  induction l1 generalizing ys with
  | nil => exact ⟨[], ys, rfl, h, rfl⟩
  | cons a l1 ih =>
      rw [List.cons_append] at h
      obtain ⟨y, ys2, hfa, hrest, rfl⟩ := eMapM_cons_ok h
      obtain ⟨zs1, zs2, h1, h2, rfl⟩ := ih hrest
      exact ⟨y :: zs1, zs2, by rw [eMapM, hfa, h1], h2, rfl⟩

theorem eFlatMapM_ok_forall {f : α → Except ε (List β)} {l : List α}
    {ys : List β} (h : eFlatMapM f l = .ok ys) :
    ∀ x ∈ l, ∃ zs, f x = .ok zs := by
  induction l generalizing ys with
  | nil => simp
  | cons a l ih =>
      intro x hx
      rw [eFlatMapM] at h
      cases hfa : f a with
      | error e => rw [hfa] at h; cases h
      | ok zs =>
          rw [hfa] at h
          cases hrest : eFlatMapM f l with
          | error e => rw [hrest] at h; cases h
          | ok ws =>
              rcases List.mem_cons.mp hx with rfl | hx2
              · exact ⟨zs, hfa⟩
              · exact ih hrest x hx2

theorem eFlatMapM_error_of_mem {f : α → Except ε (List β)} {l : List α}
    {x : α} (hx : x ∈ l) (he : ∃ e, f x = .error e) :
    ∃ e2, eFlatMapM f l = .error e2 := by
  induction l with
  | nil => cases hx
  | cons a l ih =>
      rcases List.mem_cons.mp hx with rfl | hx2
      · obtain ⟨e, hfe⟩ := he
        exact ⟨e, by rw [eFlatMapM, hfe]⟩
      · cases hfa : f a with
        | error e => exact ⟨e, by rw [eFlatMapM, hfa]⟩
        | ok y =>
            obtain ⟨e2, hrec⟩ := ih hx2
            cases hrec2 : eFlatMapM f l with
            | error e3 => exact ⟨e3, by rw [eFlatMapM, hfa, hrec2]⟩
            | ok ws => rw [hrec2] at hrec; cases hrec

theorem foldl_dump_data (recs : List BRec) (fp : PFile) :
    (recs.foldl (fun f r => pickle_dump r f) fp).data = fp.data ++ recs := by
  induction recs generalizing fp with
  | nil => simp
  | cons r recs ih =>
      rw [List.foldl_cons, ih]
      simp [pickle_dump]

theorem run_fold_ok {w : World} {verbose : Bool}
    {cs : List (OuterCombo × RunCfg × Option Int × Int)}
    {fp fp2 : PFile} (h : run_fold w verbose fp cs = .ok fp2) :
    ∃ rss, eMapM (combo_records w verbose) cs = .ok rss ∧
      fp2.data = fp.data ++ rss.flatten := by
  induction cs generalizing fp with
  | nil =>
      rw [run_fold] at h
      cases h
      exact ⟨[], rfl, by simp [eMapM]⟩
  | cons c cs ih =>
      rw [run_fold] at h
      cases hc : combo_records w verbose c with
      | error e => rw [hc] at h; cases h
      | ok recs =>
          rw [hc] at h
          obtain ⟨rss, h1, h2⟩ := ih h
          refine ⟨recs :: rss, by rw [eMapM, hc, h1], ?_⟩
          rw [h2, foldl_dump_data]
          simp

theorem unpick_from_eq (l acc : List BRec) :
    unpick_from acc l = acc.reverse ++ l := by
  induction l generalizing acc with
  | nil => simp [unpick_from]
  | cons r rest ih => simp [unpick_from, ih]

theorem unpick_eq (fp : PFile) : unpick fp = fp.data := by
  simp [unpick, unpick_from_eq]

theorem eMapM_pyInt_ints (ns : List Int) :
    eMapM pyInt (ns.map YVal.int) = .ok ns := by
  induction ns with
  | nil => rfl
  | cons n ns ih => simp [eMapM, pyInt, ih]

theorem eMapM_iter_entry_lists (l : List (String × CfgEntry))
    (h : ∀ p ∈ l, ∃ vs, p.2 = CfgEntry.val (YVal.list vs)) :
    eMapM iter_entry l = .ok (l.map (fun p => entryVs p.2)) := by
  induction l with
  | nil => rfl
  | cons x xs ih =>
      obtain ⟨vs, hx⟩ := h x (List.mem_cons_self x xs)
      have ihx := ih (fun p hp => h p (List.mem_cons_of_mem _ hp))
      obtain ⟨k, xv⟩ := x
      simp only at hx
      subst hx
      simp [eMapM, iter_entry, pyIter, entryVs, ihx]

theorem all_eq_one_replicate (n : Nat) :
    (List.replicate n (1 : Int)).all (fun x => x == 1) = true := by
  induction n with
  | zero => rfl
  | succ n ih => simp [List.replicate_succ, ih]

theorem flatten_replicate_replicate (n k : Nat) (a : α) :
    (List.replicate n (List.replicate k a)).flatten =
      List.replicate (n * k) a := by
  induction n with
  | zero => simp
  | succ n ih =>
      rw [List.replicate_succ, List.flatten_cons, ih, Nat.succ_mul,
        Nat.add_comm, List.append_replicate_replicate]

/-! ## Claim theorems -/

/-- Claim C1 (code bug, evaluated at the failing input): the kwarg
filter of `load_config` tests the VALUE `cv` against
`DEFAULT_CONFIGS` instead of the key `cn`, so a per-operator override
of `batch_sizes` leaks into the kwargs of the produced descriptor, and
a non-default key whose value is the string `"threads"` is dropped
from the kwargs — both contradicting the specified key-based
exclusion. -/
theorem load_config_filters_values_not_keys :
    load_config docOverrideLeak = .ok [descOverrideLeak] ∧
    "batch_sizes" ∈ descOverrideLeak.kwargs.map Prod.fst ∧
    load_config docValueDrop = .ok [descValueDrop] ∧
    "x" ∉ descValueDrop.kwargs.map Prod.fst := by
  refine ⟨rfl, ?_, rfl, ?_⟩
  · simp [descOverrideLeak]
  · simp [descValueDrop]

/-- Claim C2 (counterexample): the shape-of-`ones` form
`\x7bones: [1,2,3,4,5]\x7d` does NOT raise a configuration error — it
is accepted and resolves to the 5-dimensional shape `(1,2,3,4,5)`. -/
theorem unpack_config_accepts_five_dims :
    unpack_config (.dict [("ones",
        .list [.int 1, .int 2, .int 3, .int 4, .int 5])]) =
      .ok (.onesGen [1, 2, 3, 4, 5]) := rfl

/-- Claim C2 (amended): a kwarg value that is a mapping with key
`ones` whose value is an empty list or not a list at all raises a
fatal configuration error (`UnboundLocalError` at the `partial`
construction), while any list of length at least 2 — in particular
`[1,2,3,4,5]` — is accepted verbatim rather than raising. -/
theorem unpack_config_ones_error_amended :
    (∀ es v, lookupD es "ones" = some v →
        (∀ vs, v = YVal.list vs → vs = []) →
        unpack_config (YVal.dict es) = .error .unboundLocal) ∧
    unpack_config (YVal.dict [("ones", YVal.list [])]) =
      .error .unboundLocal ∧
    unpack_config (YVal.dict [("ones", YVal.int 4)]) =
      .error .unboundLocal ∧
    unpack_config (.dict [("ones",
        .list [.int 1, .int 2, .int 3, .int 4, .int 5])]) =
      .ok (.onesGen [1, 2, 3, 4, 5]) := by
  refine ⟨?_, rfl, rfl, rfl⟩
  intro es v h hbad
  have hu : unpack_config (YVal.dict es) = unpack_ones v := by
    simp [unpack_config, h]
  rw [hu]
  cases v with
  | list vs =>
      cases vs with
      | nil => rfl
      | cons a tl => exact absurd (hbad _ rfl) (by simp)
  | int n => rfl
  | str s => rfl
  | dict d => rfl

/-- Witness for `unpack_config_ones_error_amended` at a concrete
malformed spec. -/
theorem unpack_config_ones_error_amended_witness :
    unpack_config (YVal.dict [("ones", YVal.str "bad")]) =
      .error .unboundLocal :=
  unpack_config_ones_error_amended.1 [("ones", YVal.str "bad")]
    (YVal.str "bad") rfl (fun _ hv => nomatch hv)

/-- Claim C5: a one-element shape-of-`ones` list `[d]` resolves to the
square shape `(d, d)`; a list of length at least 2 resolves to exactly
that tuple; `create_ones` generates a value of exactly the resolved
shape with every element equal to one. -/
theorem ones_shape_resolution_spec :
    (∀ es d, lookupD es "ones" = some (YVal.list [YVal.int d]) →
        unpack_config (YVal.dict es) = .ok (.onesGen [d, d])) ∧
    (∀ es ns, 2 ≤ ns.length →
        lookupD es "ones" = some (YVal.list (ns.map YVal.int)) →
        unpack_config (YVal.dict es) = .ok (.onesGen ns)) ∧
    (∀ (ns : List Nat) out_t dtype device,
        ∃ v, create_ones (ns.map Int.ofNat) out_t dtype device = .ok v ∧
          valShape v = ns ∧ valAllOnes v = true) := by
  refine ⟨?_, ?_, ?_⟩
  · intro es d h
    simp [unpack_config, h, unpack_ones, eMapM, pyInt]
  · intro es ns hlen h
    have hu : unpack_config (YVal.dict es) =
        unpack_ones (YVal.list (ns.map YVal.int)) := by
      simp [unpack_config, h]
    rw [hu]
    match ns, hlen with
    | a :: b :: rest, _ =>
        show unpack_ones (YVal.list
          (YVal.int a :: YVal.int b :: rest.map YVal.int)) = _
        rw [unpack_ones]
        have := eMapM_pyInt_ints (a :: b :: rest)
        simp only [List.map_cons] at this
        rw [this]
  · intro ns out_t dtype device
    have hnn : (ns.map Int.ofNat).all (fun d => 0 ≤ d) = true := by
      simp [List.all_eq_true]
    have hsh : (ns.map Int.ofNat).map Int.toNat = ns := by
      simp [List.map_map, Function.comp_def]
    refine ⟨if out_t == "tensor"
        then .tensor ⟨ns, List.replicate ns.prod 1⟩
        else .ndarray ⟨ns, List.replicate ns.prod 1⟩, ?_, ?_, ?_⟩
    · rw [create_ones, torch_ones, if_pos hnn, hsh]
    · cases hb : (out_t == "tensor") <;> simp [hb, valShape]
    · cases hb : (out_t == "tensor") <;>
        simp [hb, valAllOnes, all_eq_one_replicate]

/-- Witness for `ones_shape_resolution_spec` at the spec's own
examples `\x7bones: [4]\x7d` and `\x7bones: [2,3,4]\x7d`. -/
theorem ones_shape_resolution_spec_witness :
    unpack_config (YVal.dict [("ones", YVal.list [YVal.int 4])]) =
      .ok (.onesGen [4, 4]) ∧
    unpack_config (YVal.dict [("ones",
        YVal.list [YVal.int 2, YVal.int 3, YVal.int 4])]) =
      .ok (.onesGen [2, 3, 4]) ∧
    ∃ v, create_ones [2, 3] "tensor" "float32" "cpu" = .ok v ∧
      valShape v = [2, 3] ∧ valAllOnes v = true :=
  ⟨ones_shape_resolution_spec.1 _ 4 rfl,
   ones_shape_resolution_spec.2.1 _ [2, 3, 4] (by simp) rfl,
   ones_shape_resolution_spec.2.2 [2, 3] "tensor" "float32" "cpu"⟩

/-- Claim C10: a kwargs mapping whose non-callable part is empty
(every value callable, or no entries at all) expands to exactly one
combination — the mapping of the callable values themselves — and an
operator section with only deferred-generator kwargs yields exactly
one descriptor. -/
theorem dict_product_all_callable :
    (∀ data : List (String × CfgEntry),
        (∀ p ∈ data, isCallable p.2 = true) →
        dict_product data = .ok [data]) ∧
    load_config docOnlyGenerators = .ok [descOnlyGenerators] := by
  refine ⟨?_, rfl⟩
  intro data h
  have h1 : data.filter (fun p => !(isCallable p.2)) = [] := by
    rw [List.filter_eq_nil_iff]
    intro p hp
    simp [h p hp]
  have h2 : data.filter (fun p => isCallable p.2) = data :=
    List.filter_eq_self.mpr h
  rw [dict_product]
  simp only [h1, h2, eMapM, listProduct]
  rfl

/-- Witness for `dict_product_all_callable`: a single deferred
generator expands to one combination containing it unchanged. -/
theorem dict_product_all_callable_witness :
    dict_product [("g", CfgEntry.onesGen [4, 4])] =
      .ok [[("g", CfgEntry.onesGen [4, 4])]] :=
  dict_product_all_callable.1 _ (by
    intro p hp
    simp only [List.mem_singleton] at hp
    subst hp
    rfl)

/-- Claim C3 (counterexample): a value list containing a duplicate
yields two EQUAL kwargs combinations, so the produced combinations are
not pairwise distinct. -/
theorem dict_product_duplicate_combos :
    dict_product [("k", CfgEntry.val (.list [.int 3, .int 3]))] =
      .ok [[("k", CfgEntry.val (.int 3))], [("k", CfgEntry.val (.int 3))]] ∧
    ¬ ([[("k", CfgEntry.val (YVal.int 3))],
        [("k", CfgEntry.val (YVal.int 3))]] :
        List (List (String × CfgEntry))).Nodup := by
  refine ⟨rfl, ?_⟩
  intro h
  exact (List.nodup_cons.mp h).1 (List.mem_singleton.mpr rfl)

/-- Claim C3 (amended): the number of combinations equals the product
of the sizes of the non-callable value lists; the combinations are
pairwise distinct PROVIDED each value list is itself duplicate-free;
and every callable value appears unchanged in every combination. -/
theorem dict_product_cartesian_spec (data : List (String × CfgEntry))
    (hv : ∀ p ∈ data, isCallable p.2 = false →
        ∃ vs, p.2 = CfgEntry.val (YVal.list vs)) :
    ∃ combos, dict_product data = .ok combos ∧
      combos.length = ((data.filter (fun p => !(isCallable p.2))).map
        (fun p => (entryVs p.2).length)).prod ∧
      ((∀ p ∈ data, isCallable p.2 = false → (entryVs p.2).Nodup) →
        combos.Nodup) ∧
      (∀ c ∈ combos, ∀ p ∈ data, isCallable p.2 = true → p ∈ c) := by
  have hlists : ∀ p ∈ data.filter (fun p => !(isCallable p.2)),
      ∃ vs, p.2 = CfgEntry.val (YVal.list vs) := by
    intro p hp
    obtain ⟨hp1, hp2⟩ := List.mem_filter.mp hp
    exact hv p hp1 (by simpa using hp2)
  have hmap := eMapM_iter_entry_lists _ hlists
  refine ⟨(listProduct ((data.filter (fun p => !(isCallable p.2))).map
      (fun p => entryVs p.2))).map (fun e =>
        ((data.filter (fun p => !(isCallable p.2))).map Prod.fst).zip
          (e.map CfgEntry.val) ++ data.filter (fun p => isCallable p.2)),
    ?_, ?_, ?_, ?_⟩
  · simp only [dict_product, hmap]
  · rw [List.length_map, listProduct_length, List.map_map]
    rfl
  · intro hnd
    have hvnd : ∀ l ∈ (data.filter (fun p => !(isCallable p.2))).map
        (fun p => entryVs p.2), l.Nodup := by
      intro l hl
      obtain ⟨p, hp, rfl⟩ := List.mem_map.mp hl
      obtain ⟨hp1, hp2⟩ := List.mem_filter.mp hp
      exact hnd p hp1 (by simpa using hp2)
    refine (listProduct_nodup hvnd).map_on ?_
    intro e1 he1 e2 he2 heq
    have hl1 := length_of_mem_listProduct he1
    have hl2 := length_of_mem_listProduct he2
    have hkeys : ((data.filter (fun p => !(isCallable p.2))).map
        Prod.fst).length =
        ((data.filter (fun p => !(isCallable p.2))).map
          (fun p => entryVs p.2)).length := by
      simp
    have hz := List.append_cancel_right heq
    have m1 := List.map_snd_zip
      ((data.filter (fun p => !(isCallable p.2))).map Prod.fst)
      (e1.map CfgEntry.val) (by simp [hl1, ← hkeys])
    have m2 := List.map_snd_zip
      ((data.filter (fun p => !(isCallable p.2))).map Prod.fst)
      (e2.map CfgEntry.val) (by simp [hl2, ← hkeys])
    have hmv : e1.map CfgEntry.val = e2.map CfgEntry.val := by
      rw [← m1, ← m2, hz]
    exact List.map_injective_iff.mpr
      (fun a b hab => CfgEntry.val.inj hab) hmv
  · intro c hc p hp hcall
    obtain ⟨e, _, rfl⟩ := List.mem_map.mp hc
    exact List.mem_append_right _
      (List.mem_filter.mpr ⟨hp, hcall⟩)

/-- Witness for `dict_product_cartesian_spec`: one two-element value
list and one deferred generator give exactly two distinct
combinations, each carrying the generator unchanged. -/
theorem dict_product_cartesian_spec_witness :
    ∃ combos, dict_product
        [("a", CfgEntry.val (.list [.int 1, .int 2])),
         ("g", CfgEntry.onesGen [4, 4])] = .ok combos ∧
      combos.length = 2 ∧ combos.Nodup ∧
      ∀ c ∈ combos, ("g", CfgEntry.onesGen [4, 4]) ∈ c := by
  obtain ⟨combos, h1, h2, h3, h4⟩ :=
    dict_product_cartesian_spec
      [("a", CfgEntry.val (.list [.int 1, .int 2])),
       ("g", CfgEntry.onesGen [4, 4])]
      (by
        intro p hp hnc
        rcases List.mem_cons.mp hp with rfl | hp2
        · exact ⟨[.int 1, .int 2], rfl⟩
        · rcases List.mem_singleton.mp hp2 with rfl
          cases hnc)
  refine ⟨combos, h1, h2.trans rfl, h3 ?_, fun c hc =>
    h4 c hc ("g", CfgEntry.onesGen [4, 4])
      (List.mem_cons_of_mem _ (List.mem_singleton.mpr rfl)) rfl⟩
  intro p hp hnc
  rcases List.mem_cons.mp hp with rfl | hp2
  · simp [entryVs]
  · rcases List.mem_singleton.mp hp2 with rfl
    cases hnc

/-- Claim C4 (counterexample): a section missing `threads` (indeed all
four default keys) both locally and in `global`, whose kwarg value
list is empty, makes `load_config` return successfully with no
descriptors — no fatal error is raised, because the default-key
lookups only run once per produced kwargs combination and the
cartesian product is empty. -/
theorem load_config_missing_key_no_error :
    lookupD [("x", YVal.list [])] "threads" = none ∧
    lookupD ([] : List (String × YVal)) "threads" = none ∧
    load_config docEmptyCombos = .ok [] :=
  ⟨rfl, rfl, rfl⟩

/-- Claim C4 (amended): a default key present in the section is used;
absent there it falls back to `global`; absent from both, the lookup
raises `KeyError`, and `load_config` fails with a fatal error PROVIDED
the section produces at least one kwargs combination. -/
theorem default_key_fallback_spec :
    (∀ cn v g x, lookupD v cn = some x →
        unpack_config_or_load_global cn v g = .ok x) ∧
    (∀ cn v ges x, lookupD v cn = none → lookupD ges cn = some x →
        unpack_config_or_load_global cn v (.dict ges) = .ok x) ∧
    (∀ cn v ges, lookupD v cn = none → lookupD ges cn = none →
        unpack_config_or_load_global cn v (.dict ges) =
          .error (.keyError cn)) ∧
    (∀ data g k v cn kw c combos,
        lookupD data "global" = some g →
        (k, YVal.dict v) ∈ data → k ≠ "global" →
        cn ∈ DEFAULT_CONFIGS →
        lookupD v cn = none →
        (∀ ges, g = YVal.dict ges → lookupD ges cn = none) →
        section_kwargs v = .ok kw →
        dict_product kw = .ok (c :: combos) →
        ∃ e, load_config data = .error e) := by
  refine ⟨?_, ?_, ?_, ?_⟩
  · intro cn v g x h
    simp [unpack_config_or_load_global, h]
  · intro cn v ges x h1 h2
    simp [unpack_config_or_load_global, h1, h2]
  · intro cn v ges h1 h2
    simp [unpack_config_or_load_global, h1, h2]
  · intro data g k v cn kw c combos hg hmem hk hcn h1 h2 hkw hdp
    have hu : ∃ e, unpack_config_or_load_global cn v g = .error e := by
      cases g with
      | dict ges =>
          exact ⟨.keyError cn, by
            simp only [unpack_config_or_load_global, h1, h2 ges rfl]⟩
      | int n =>
          exact ⟨.typeError, by simp only [unpack_config_or_load_global, h1]⟩
      | str s =>
          exact ⟨.typeError, by simp only [unpack_config_or_load_global, h1]⟩
      | list l =>
          exact ⟨.typeError, by simp only [unpack_config_or_load_global, h1]⟩
    have hb : ∀ lc, ∃ e2, build_descriptor g k v lc = .error e2 := by
      intro lc
      obtain ⟨e, he⟩ := hu
      simp only [DEFAULT_CONFIGS, List.mem_cons, List.mem_singleton,
        List.not_mem_nil, or_false] at hcn
      rcases hcn with rfl | rfl | rfl | rfl
      · exact ⟨e, by simp only [build_descriptor, he]⟩
      · cases hb1 : unpack_config_or_load_global "batch_sizes" v g with
        | error e1 => exact ⟨e1, by simp only [build_descriptor, hb1]⟩
        | ok b1 => exact ⟨e, by simp only [build_descriptor, hb1, he]⟩
      · cases hb1 : unpack_config_or_load_global "batch_sizes" v g with
        | error e1 => exact ⟨e1, by simp only [build_descriptor, hb1]⟩
        | ok b1 =>
            cases hb2 : unpack_config_or_load_global "resolutions" v g with
            | error e2 => exact ⟨e2, by simp only [build_descriptor, hb1, hb2]⟩
            | ok b2 => exact ⟨e, by simp only [build_descriptor, hb1, hb2, he]⟩
      · cases hb1 : unpack_config_or_load_global "batch_sizes" v g with
        | error e1 => exact ⟨e1, by simp only [build_descriptor, hb1]⟩
        | ok b1 =>
            cases hb2 : unpack_config_or_load_global "resolutions" v g with
            | error e2 => exact ⟨e2, by simp only [build_descriptor, hb1, hb2]⟩
            | ok b2 =>
                cases hb3 : unpack_config_or_load_global "threads" v g with
                | error e3 =>
                    exact ⟨e3, by simp only [build_descriptor, hb1, hb2, hb3]⟩
                | ok b3 =>
                    exact ⟨e, by simp only [build_descriptor, hb1, hb2, hb3, he]⟩
    have hs : ∃ e, load_section g k (YVal.dict v) = .error e := by
      obtain ⟨e2, he2⟩ :=
        eMapM_error_of_mem (List.mem_cons_self c combos) (hb c)
      exact ⟨e2, by simp only [load_section, hkw, hdp, he2]⟩
    have hmem2 : (k, YVal.dict v) ∈
        data.filter (fun p => p.1 != "global") := by
      refine List.mem_filter.mpr ⟨hmem, ?_⟩
      simpa using hk
    obtain ⟨e3, he3⟩ := @eFlatMapM_error_of_mem (String × YVal) CfgErr
      Descriptor (fun p => load_section g p.1 p.2)
      (data.filter (fun p => p.1 != "global")) (k, YVal.dict v) hmem2 hs
    exact ⟨e3, by simp only [load_config, hg, he3]⟩

/-- Witness for `default_key_fallback_spec`: `docMissingThreads`
misses `threads` in both places and has one kwargs combination, so
`load_config` fails. -/
theorem default_key_fallback_spec_witness :
    ∃ e, load_config docMissingThreads = .error e :=
  default_key_fallback_spec.2.2.2 docMissingThreads
    (.dict [("batch_sizes", .list [.int 1]),
            ("resolutions", .list [.int 2]),
            ("import_from", .str "m")])
    "op" [("x", .list [.int 1])] "threads"
    [("x", .val (.list [.int 1]))] [("x", .val (.int 1))] []
    rfl (List.mem_cons_of_mem _ (List.mem_singleton.mpr rfl))
    (by decide) (by simp [DEFAULT_CONFIGS]) rfl
    (fun ges hges => by cases hges; rfl) rfl rfl

/-- Claim C7: with batch size `b` the primary input is an all-ones
value of shape `(b, 3, res, res)`; with batch size `None` it is an
all-ones value of shape `(3, res, res)` with no leading batch
dimension; non-RGB input fails with the `NotImplementedError`
signal instead of returning a value.  (The dtype and device arguments
do not change the stored values of a uniform ones array.) -/
theorem create_inputs_spec :
    (∀ (b res : Nat) out_t dtype device,
        ∃ v, create_inputs (some (b : Int)) (res : Int) out_t dtype
            device true = .ok v ∧
          valShape v = [b, 3, res, res] ∧ valAllOnes v = true) ∧
    (∀ (res : Nat) out_t dtype device,
        ∃ v, create_inputs none (res : Int) out_t dtype device true =
            .ok v ∧
          valShape v = [3, res, res] ∧ valAllOnes v = true) ∧
    (∀ bs res out_t dtype device,
        create_inputs bs res out_t dtype device false =
          .error .notImplemented) := by
  have hto : ∀ (res : Nat),
      torch_ones [3, (res : Int), (res : Int)] =
        .ok ⟨[3, res, res], List.replicate (3 * res * res) 1⟩ := by
    intro res
    rw [torch_ones, if_pos (by simp)]
    have hsh : ([3, (res : Int), (res : Int)].map Int.toNat) =
        [3, res, res] := by simp
    rw [hsh]
    have hp : ([3, res, res] : List Nat).prod = 3 * res * res := by
      simp [List.prod_cons, Nat.mul_assoc]
    rw [hp]
  refine ⟨?_, ?_, ?_⟩
  · intro b res out_t dtype device
    have hr : repeat_dim0 (b : Int) (unsqueeze0
        ⟨[3, res, res], List.replicate (3 * res * res) 1⟩) =
        .ok ⟨[b, 3, res, res],
          List.replicate (b * (3 * res * res)) 1⟩ := by
      rw [repeat_dim0, if_neg (by simp)]
      simp only [unsqueeze0]
      rw [flatten_replicate_replicate]
      simp
    refine ⟨if out_t == "tensor"
        then .tensor ⟨[b, 3, res, res],
          List.replicate (b * (3 * res * res)) 1⟩
        else .ndarray ⟨[b, 3, res, res],
          List.replicate (b * (3 * res * res)) 1⟩, ?_, ?_, ?_⟩
    · simp only [create_inputs, if_true, hto, hr]
    · cases hb : (out_t == "tensor") <;> simp [hb, valShape]
    · cases hb : (out_t == "tensor") <;>
        simp [hb, valAllOnes, all_eq_one_replicate]
  · intro res out_t dtype device
    refine ⟨if out_t == "tensor"
        then .tensor ⟨[3, res, res], List.replicate (3 * res * res) 1⟩
        else .ndarray ⟨[3, res, res],
          List.replicate (3 * res * res) 1⟩, ?_, ?_, ?_⟩
    · simp only [create_inputs, if_true, hto]
    · cases hb : (out_t == "tensor") <;> simp [hb, valShape]
    · cases hb : (out_t == "tensor") <;>
        simp [hb, valAllOnes, all_eq_one_replicate]
  · intro bs res out_t dtype device
    simp [create_inputs]

/-- Claim C6: the probe catches every import/invocation failure and
returns a boolean (true exactly when import, lookup and invocation all
succeed); the sweep visits every combination, a failed probe
contributes no records, and every combination's records appear in the
output stream as one contiguous block independent of the other
combinations' outcomes. -/
theorem probe_failure_isolation (w : World) (configs : List RunCfg)
    (verbose : Bool) (fp : PFile) (results : List BRec) (code : Int)
    (h : run w configs verbose = .ok (fp, results, code)) :
    (∃ rss, eMapM (combo_records w verbose) (all_combos configs) =
        .ok rss ∧ fp.data = rss.flatten) ∧
    (∀ c ∈ all_combos configs, ∃ recs pre post,
        combo_records w verbose c = .ok recs ∧
        fp.data = pre ++ recs ++ post) ∧
    (∀ o cfg bs res x kwargs,
        create_inputs bs res o.input_type "float32" o.device true =
          .ok x →
        build_kwargs cfg.kwargs o.input_type "float32" o.device =
          .ok kwargs →
        check_run w verbose (cfg.import_from ++ "." ++ cfg.module)
          o.operator x o.use_opt kwargs = false →
        run_combo w verbose o cfg bs res = .ok []) ∧
    (∀ vb m op x uo kw, check_run w vb m op x uo kw = true ↔
        ∃ md opk, w.importMod m = .ok md ∧ w.getattr md op = .ok opk ∧
          w.invoke opk uo x kw = .ok ()) := by
  have hf : run_fold w verbose ⟨[]⟩ (all_combos configs) = .ok fp := by
    rw [run] at h
    cases hf0 : run_fold w verbose ⟨[]⟩ (all_combos configs) with
    | error e => rw [hf0] at h; cases h
    | ok fp0 =>
        rw [hf0] at h
        injection h with h1
        injection h1 with ha hb
        rw [ha]
  obtain ⟨rss, hm, hdata⟩ := run_fold_ok hf
  have hdata2 : fp.data = rss.flatten := by simpa using hdata
  refine ⟨⟨rss, hm, hdata2⟩, ?_, ?_, ?_⟩
  · intro c hc
    obtain ⟨s, t, hst⟩ := List.append_of_mem hc
    rw [hst] at hm
    obtain ⟨ys1, ys2, hs1, hs2, hys⟩ := eMapM_append_ok hm
    obtain ⟨y, ys3, hy, _, hys2⟩ := eMapM_cons_ok hs2
    refine ⟨y, ys1.flatten, ys3.flatten, hy, ?_⟩
    rw [hdata2, hys, hys2]
    simp [List.flatten_append, List.flatten_cons, List.append_assoc]
  · intro o cfg bs res x kwargs hx hk hc
    rw [run_combo, hx, hk]
    simp only [hc, Bool.false_eq_true, if_false]
  · intro vb m op x uo kw
    constructor
    · intro hc
      cases hm2 : w.importMod m with
      | error e => simp [check_run, hm2] at hc
      | ok md =>
          cases hg2 : w.getattr md op with
          | error e => simp [check_run, hm2, hg2] at hc
          | ok opk =>
              cases hi2 : w.invoke opk uo x kw with
              | error e => simp [check_run, hm2, hg2, hi2] at hc
              | ok u =>
                  cases u
                  refine ⟨md, opk, ?_, ?_, ?_⟩ <;>
                    first
                    | rfl
                    | assumption
    · rintro ⟨md, opk, hm2, hg2, hi2⟩
      simp [check_run, hm2, hg2, hi2]

/-- Witness for `probe_failure_isolation`: in a world where every
invocation raises, the probe fails and the combination produces no
records. -/
theorem probe_failure_isolation_witness :
    run_combo worldFail false
      (OuterCombo.mk "kornia_op" "tensor" "cpu" "" false)
      cfg0 (some 1) 1 = .ok [] :=
  (probe_failure_isolation worldFail [cfg0] false ⟨[]⟩ [] 0
      rfl).2.2.1
    (OuterCombo.mk "kornia_op" "tensor" "cpu" "" false) cfg0 (some 1) 1
    (.tensor ⟨[1, 3, 1, 1], [1, 1, 1]⟩) [] rfl rfl rfl

/-- Claim C8: the record stream written by a run with K successful
timed measurements yields exactly those K records, in append order,
when read back to end-of-stream; repeating the full read yields the
identical sequence. -/
theorem record_stream_roundtrip (w : World) (configs : List RunCfg)
    (verbose : Bool) (fp : PFile) (results : List BRec) (code : Int)
    (h : run w configs verbose = .ok (fp, results, code)) :
    unpick fp = fp.data ∧ (unpick fp).length = fp.data.length ∧
    results = fp.data ∧ unpick ⟨unpick fp⟩ = unpick fp := by
  have h1 := unpick_eq fp
  refine ⟨h1, by rw [h1], ?_, by rw [unpick_eq, unpick_eq]⟩
  rw [run] at h
  cases hf : run_fold w verbose ⟨[]⟩ (all_combos configs) with
  | error e => rw [hf] at h; cases h
  | ok fp0 =>
      rw [hf] at h
      injection h with h2
      injection h2 with ha hb
      injection hb with hb1 hb2
      rw [← hb1, ← ha, unpick_eq]

/-- Witness for `record_stream_roundtrip` on a concrete completed
run. -/
theorem record_stream_roundtrip_witness :
    unpick (⟨[]⟩ : PFile) = [] ∧ (unpick (⟨[]⟩ : PFile)).length = 0 ∧
    ([] : List BRec) = [] ∧
    unpick ⟨unpick (⟨[]⟩ : PFile)⟩ = unpick (⟨[]⟩ : PFile) :=
  record_stream_roundtrip worldFail [cfg0] false ⟨[]⟩ [] 0 rfl

/-- Claim C9: a run that completes the full sweep returns exit code 0,
for every pattern of per-combination probe outcomes; the presence of
probe failures never changes the returned value. -/
theorem run_returns_zero :
    (∀ w configs verbose fp results code,
        run w configs verbose = .ok (fp, results, code) → code = 0) ∧
    (∀ w w2 configs verbose vb2 out out2,
        run w configs verbose = .ok out → run w2 configs vb2 = .ok out2 →
        out.2.2 = out2.2.2) := by
  have hz : ∀ w configs verbose fp results code,
      run w configs verbose = .ok (fp, results, code) → code = 0 := by
    intro w configs verbose fp results code h
    rw [run] at h
    cases hf : run_fold w verbose ⟨[]⟩ (all_combos configs) with
    | error e => rw [hf] at h; cases h
    | ok fp0 =>
        rw [hf] at h
        injection h with h1
        injection h1 with ha hb
        injection hb with hb1 hb2
        exact hb2.symm
  refine ⟨hz, ?_⟩
  intro w w2 configs verbose vb2 out out2 h1 h2
  obtain ⟨f1, r1, c1⟩ := out
  obtain ⟨f2, r2, c2⟩ := out2
  show c1 = c2
  rw [hz w configs verbose f1 r1 c1 h1, hz w2 configs vb2 f2 r2 c2 h2]

/-- Witness for `run_returns_zero`: a completed sweep in which every
probe fails still exits with code 0. -/
theorem run_returns_zero_witness : (0 : Int) = 0 :=
  run_returns_zero.1 worldFail [cfg0] false ⟨[]⟩ [] 0 rfl

end Runner
